import Mathlib

/-!
Verification development for the simple-app-config configuration engine.

The definitions below are a shallow embedding, in Lean, of the TypeScript
sources of the repository:

* `src/utils/typeConverter.ts` (the complete, tested converter version):
  `convertToNumber`, `convertToBoolean`, `convertToDate`, `convertToRegExp`,
  `convertToObject`, `convertToNestableType`, `convertToArray`,
  `convertToSet`, `convertToMap`;
* `src/simple-app-config.ts` (the `Config` class): `expandEnvVar`,
  `convertJSONToMap`, `parseJSON`, `loadConfigAndPopulate`,
  `determineEnvironment`, `setEnvironmentNames`, `setPaths`,
  `isValidEnvFile`, `isValidConfigFile`, `loadEnvFile`, `loadConfigFile`,
  `loadDefaultConfigFile`, `refreshEnvCache`, `configure`, `get`.

Host-language (JavaScript) builtins the sources call — `Number(...)`,
`JSON.parse`, `String(...)`, `typeof`, `path.extname`, `String.prototype`
methods — are embedded as explicit Lean functions modelling the ECMAScript
behaviour on the value shapes the repository exercises.  The two builtins
whose full behaviour is irrelevant to every claim (generic `Date` string
parsing and `RegExp` pattern validation) are abstracted as a collaborator
record `JsRuntime`, exactly at the interface boundary the code uses them.

Exceptions are embedded as `Except CfgError`.  JavaScript `Map` objects are
embedded as insertion-ordered association lists with first-match lookup and
in-place update, which is observationally the behaviour of `Map` for the
operations the sources perform (`has`, `get`, `set`, iteration over `keys()`).
-/

/-- Result of the JavaScript `Number(...)` conversion: NaN, one of the two
infinities, or a finite value (modelled as a rational; the double-precision
rounding of the host is irrelevant to every property proved below). -/
inductive JsNum where
  | nan : JsNum
  | inf : JsNum
  | negInf : JsNum
  | finite (q : Rat) : JsNum
deriving DecidableEq, Repr

/-- Characters the ECMAScript `StringToNumber` conversion treats as trimmable
whitespace (ASCII fragment; the sources only meet ASCII input). -/
def jsIsSpace (c : Char) : Bool :=
  c = ' ' || c = '\t' || c = '\n' || c = '\r' || c = '\x0b' || c = '\x0c'

/-- Digits of a character list, as long as they keep coming. -/
def takeDigits : List Char → (List Char × List Char)
  | [] => ([], [])
  | c :: cs =>
    if c.isDigit then
      let (ds, rest) := takeDigits cs
      (c :: ds, rest)
    else ([], c :: cs)

/-- Numeric value of a list of decimal digits. -/
def digitsVal (ds : List Char) : Nat :=
  ds.foldl (fun acc c => acc * 10 + (c.toNat - '0'.toNat)) 0

/-- Parse an unsigned decimal numeric literal (`digits[.digits][e[±]digits]`,
also `.digits`) into a rational, returning the remaining characters.
Mirrors the ECMAScript `StrUnsignedDecimalLiteral` grammar. -/
def parseDecimal (cs : List Char) : Option (Rat × List Char) :=
  let (intPart, rest1) := takeDigits cs
  let (fracPart, rest2) :=
    match rest1 with
    | '.' :: cs1 => takeDigits cs1
    | _ => ([], rest1)
  if intPart.isEmpty ∧ fracPart.isEmpty then
    none
  else
    let base : Rat := (digitsVal intPart : Rat) +
      (digitsVal fracPart : Rat) / ((10 : Rat) ^ fracPart.length)
    match rest2 with
    | 'e' :: cs2 | 'E' :: cs2 =>
      let (sign, cs3) :=
        match cs2 with
        | '+' :: cs3 => (true, cs3)
        | '-' :: cs3 => (false, cs3)
        | _ => (true, cs2)
      let (expDigits, rest3) := takeDigits cs3
      if expDigits.isEmpty then
        none
      else
        let e := digitsVal expDigits
        some ((if sign then base * (10 : Rat) ^ e else base / (10 : Rat) ^ e), rest3)
    | _ => some (base, rest2)

/-- The ECMAScript `Number(string)` conversion (`StringToNumber`): trims
whitespace, maps the empty string to `0`, recognises signed `Infinity` and
signed decimal literals, and yields `NaN` otherwise.  (The hexadecimal /
binary / octal literal forms never appear in the repository's inputs and are
mapped to `NaN` here.) -/
def jsNumber (s : String) : JsNum :=
  let cs := (s.data.dropWhile jsIsSpace).reverse.dropWhile jsIsSpace |>.reverse
  match cs with
  | [] => .finite 0
  | _ =>
    let (neg, body) :=
      match cs with
      | '+' :: rest => (false, rest)
      | '-' :: rest => (true, rest)
      | _ => (false, cs)
    if body = "Infinity".data then
      if neg then .negInf else .inf
    else
      match parseDecimal body with
      | some (q, []) => .finite (if neg then -q else q)
      | _ => .nan

/-- ASCII lower-casing of one character (the repository's inputs to
`toLowerCase` are ASCII). -/
def jsCharToLower (c : Char) : Char :=
  if 'A' ≤ c ∧ c ≤ 'Z' then Char.ofNat (c.toNat + 32) else c

/-- The `String.prototype.toLowerCase` method. -/
def jsToLowerCase (s : String) : String :=
  ⟨s.data.map jsCharToLower⟩

/-- The `String.prototype.startsWith` method. -/
def jsStartsWith (s pre : String) : Bool :=
  pre.data.isPrefixOf s.data

/-- Segment list of `String.prototype.split` with a one-character separator
(the result is never empty; splitting the empty string gives one empty
segment, as in JS). -/
def jsSplitCharGo (sep : Char) : List Char → List (List Char)
  | [] => [[]]
  | c :: rest =>
    let r := jsSplitCharGo sep rest
    if c = sep then [] :: r
    else
      match r with
      | seg :: segs => (c :: seg) :: segs
      | [] => [[c]]

/-- The `String.prototype.split` method with a one-character separator. -/
def jsSplitChar (s : String) (sep : Char) : List String :=
  (jsSplitCharGo sep s.data).map fun cs => ⟨cs⟩

/-- The `String.prototype.trim` method. -/
def jsTrim (s : String) : String :=
  ⟨(s.data.dropWhile jsIsSpace).reverse.dropWhile jsIsSpace |>.reverse⟩

/-- Parsed JSON values, the output type of the embedded `JSON.parse`. -/
inductive Json where
  | null : Json
  | bool (b : Bool) : Json
  | num (q : Rat) : Json
  | str (s : String) : Json
  | arr (elems : List Json) : Json
  | obj (entries : List (String × Json)) : Json

namespace Json

/-- Remove the binding of a key from an entry list (first occurrence). -/
def eraseKey (entries : List (String × Json)) (k : String) :
    List (String × Json) :=
  match entries with
  | [] => []
  | (k', v') :: rest => if k' = k then rest else (k', v') :: eraseKey rest k

/-- Prepend a member in front of the members parsed after it.  For a key that
re-occurs later in the text, ECMAScript objects keep the first occurrence's
position and the last occurrence's value, which is what this computes. -/
def objPrepend (k : String) (v : Json) (entries : List (String × Json)) :
    List (String × Json) :=
  match entries.lookup k with
  | some vLater => (k, vLater) :: eraseKey entries k
  | none => (k, v) :: entries

end Json

/-- Whitespace skipping for the JSON grammar. -/
def jsonSkipWs (cs : List Char) : List Char :=
  cs.dropWhile (fun c => c = ' ' || c = '\t' || c = '\n' || c = '\r')

/-- Hexadecimal digits, for `\u` escapes. -/
def isHexDigitChar (c : Char) : Bool :=
  c.isDigit || ('a' ≤ c ∧ c ≤ 'f') || ('A' ≤ c ∧ c ≤ 'F')

/-- Decode one JSON string escape sequence, returning the decoded character
and the rest.  Unicode escapes decode their code point (sufficient for the
Basic Multilingual Plane inputs the repository meets). -/
def jsonEscape (cs : List Char) : Option (Char × List Char) :=
  match cs with
  | '"' :: rest => some ('"', rest)
  | '\\' :: rest => some ('\\', rest)
  | '/' :: rest => some ('/', rest)
  | 'b' :: rest => some ('\x08', rest)
  | 'f' :: rest => some ('\x0c', rest)
  | 'n' :: rest => some ('\n', rest)
  | 'r' :: rest => some ('\r', rest)
  | 't' :: rest => some ('\t', rest)
  | 'u' :: a :: b :: c :: d :: rest =>
    if isHexDigitChar a ∧ isHexDigitChar b ∧ isHexDigitChar c ∧ isHexDigitChar d then
      let n := ((a.toNat % 16 + (if a.isDigit then 0 else 9)) * 4096 +
        (b.toNat % 16 + (if b.isDigit then 0 else 9)) * 256 +
        (c.toNat % 16 + (if c.isDigit then 0 else 9)) * 16 +
        (d.toNat % 16 + (if d.isDigit then 0 else 9)))
      some (Char.ofNat n, rest)
    else none
  | _ => none

/-- Parse the body of a JSON string (after the opening quote), returning the
decoded contents and the characters after the closing quote. -/
def jsonString : Nat → List Char → Option (String × List Char)
  | 0, _ => none
  | _ + 1, [] => none
  | _ + 1, '"' :: rest => some ("", rest)
  | fuel + 1, '\\' :: rest => do
    let (c, rest1) ← jsonEscape rest
    let (s, rest2) ← jsonString fuel rest1
    pure (⟨c :: s.data⟩, rest2)
  | fuel + 1, c :: rest => do
    let (s, rest1) ← jsonString fuel rest
    pure (⟨c :: s.data⟩, rest1)

mutual

/-- Parse one JSON value.  Fuel-indexed recursive-descent parser for the JSON
grammar accepted by `JSON.parse`. -/
def jsonValue : Nat → List Char → Option (Json × List Char)
  | 0, _ => none
  | fuel + 1, cs =>
    match jsonSkipWs cs with
    | 'n' :: 'u' :: 'l' :: 'l' :: rest => some (.null, rest)
    | 't' :: 'r' :: 'u' :: 'e' :: rest => some (.bool true, rest)
    | 'f' :: 'a' :: 'l' :: 's' :: 'e' :: rest => some (.bool false, rest)
    | '"' :: rest => do
      let (s, rest1) ← jsonString (fuel + 1) rest
      pure (.str s, rest1)
    | '[' :: rest =>
      (match jsonSkipWs rest with
      | ']' :: rest1 => some (.arr [], rest1)
      | _ => do
        let (elems, rest1) ← jsonElements fuel rest
        pure (.arr elems, rest1))
    | '{' :: rest =>
      (match jsonSkipWs rest with
      | '}' :: rest1 => some (.obj [], rest1)
      | _ => do
        let (entries, rest1) ← jsonMembers fuel rest
        pure (.obj entries, rest1))
    | '-' :: rest => do
      let (q, rest1) ← parseDecimal rest
      pure (.num (-q), rest1)
    | cs' => do
      let (q, rest1) ← parseDecimal cs'
      pure (.num q, rest1)

/-- Parse the comma-separated elements of a JSON array, consuming the closing
bracket. -/
def jsonElements : Nat → List Char → Option (List Json × List Char)
  | 0, _ => none
  | fuel + 1, cs => do
    let (v, rest) ← jsonValue fuel cs
    match jsonSkipWs rest with
    | ',' :: rest1 => do
      let (vs, rest2) ← jsonElements fuel rest1
      pure (v :: vs, rest2)
    | ']' :: rest1 => pure ([v], rest1)
    | _ => none

/-- Parse the comma-separated members of a JSON object, consuming the closing
brace. -/
def jsonMembers : Nat → List Char → Option (List (String × Json) × List Char)
  | 0, _ => none
  | fuel + 1, cs =>
    match jsonSkipWs cs with
    | '"' :: rest => do
      let (k, rest1) ← jsonString fuel rest
      match jsonSkipWs rest1 with
      | ':' :: rest2 => do
        let (v, rest3) ← jsonValue fuel rest2
        match jsonSkipWs rest3 with
        | ',' :: rest4 => do
          let (entries, rest5) ← jsonMembers fuel rest4
          pure (Json.objPrepend k v entries, rest5)
        | '}' :: rest4 => pure ([(k, v)], rest4)
        | _ => none
      | _ => none
    | _ => none

end

/-- The `JSON.parse` builtin: `some` of the parsed value on a well-formed JSON
text, `none` where `JSON.parse` would throw a `SyntaxError`. -/
def jsonParse (s : String) : Option Json :=
  match jsonValue (s.length + 1) s.data with
  | some (v, rest) =>
    match jsonSkipWs rest with
    | [] => some v
    | _ => none
  | none => none

/-- Runtime values held in the configuration map: raw JSON scalars, the
converted values the type converter produces, JS arrays, plain JS objects,
JS `Set`s and JS `Map`s (a converted `Map` and a nested configuration
mapping are the same JS `Map` type, so they share one constructor). -/
inductive CNode where
  | vNull : CNode
  | vBool (b : Bool) : CNode
  | vNum (n : JsNum) : CNode
  | vStr (s : String) : CNode
  | vDate (t : JsNum) : CNode
  | vRegExp (pattern : String) : CNode
  | vArr (elems : List CNode) : CNode
  | vObj (entries : List (String × CNode)) : CNode
  | vSet (elems : List CNode) : CNode
  | vMap (entries : List (CNode × CNode)) : CNode

mutual

/-- The identity embedding of a raw parsed-JSON value into runtime values
(what a JS value kept untouched by the converter is). -/
def jsonAsCNode : Json → CNode
  | .null => .vNull
  | .bool b => .vBool b
  | .num q => .vNum (.finite q)
  | .str s => .vStr s
  | .arr es => .vArr (jsonListAsCNode es)
  | .obj m => .vObj (jsonEntriesAsCNode m)

/-- Embed a list of raw JSON values. -/
def jsonListAsCNode : List Json → List CNode
  | [] => []
  | j :: js => jsonAsCNode j :: jsonListAsCNode js

/-- Embed the entries of a raw JSON object. -/
def jsonEntriesAsCNode : List (String × Json) → List (String × CNode)
  | [] => []
  | (k, v) :: rest => (k, jsonAsCNode v) :: jsonEntriesAsCNode rest

end

/-- The JS `typeof` operator on parsed-JSON values (`typeof null` is
`"object"`, as are arrays and plain objects). -/
def typeofJson : Json → String
  | .null => "object"
  | .bool _ => "boolean"
  | .num _ => "number"
  | .str _ => "string"
  | .arr _ => "object"
  | .obj _ => "object"

/-- Decimal digits of the fractional part of a non-negative rational, at most
`n` of them, dropping trailing zeros implicitly by stopping at zero. -/
def fracDigits : Nat → Rat → String
  | 0, _ => ""
  | n + 1, q =>
    if q = 0 then ""
    else
      let q10 := q * 10
      let d : Int := q10.floor
      ⟨Char.ofNat (48 + d.toNat) :: (fracDigits n (q10 - (d : Rat))).data⟩

/-- Decimal rendering of a rational, modelling how JS formats the number
values the repository produces (integers render exactly; non-integral values
render with up to 20 fractional digits, enough for every double that the
sources can produce from the shapes they parse). -/
def ratToJsString (q : Rat) : String :=
  if q.den = 1 then toString q.num
  else
    let sign := if q < 0 then "-" else ""
    let a := |q|
    let ip : Int := a.floor
    sign ++ toString ip ++ "." ++ fracDigits 20 (a - (ip : Rat))

/-- Rendering of a `Number` value as a string (`String(n)`). -/
def jsNumToString : JsNum → String
  | .nan => "NaN"
  | .inf => "Infinity"
  | .negInf => "-Infinity"
  | .finite q => ratToJsString q

mutual

/-- The JS `String(...)` coercion on parsed-JSON values.  Arrays stringify
via `Array.prototype.join` with `","` (where a null element contributes the
empty string) and plain objects via the default `"[object Object]"`. -/
def jsToString : Json → String
  | .null => "null"
  | .bool b => if b then "true" else "false"
  | .num q => ratToJsString q
  | .str s => s
  | .arr es => jsArrJoin es
  | .obj _ => "[object Object]"

/-- Stringify the elements of a JS array separated by commas. -/
def jsArrJoin : List Json → String
  | [] => ""
  | [j] => jsArrElemString j
  | j :: js => jsArrElemString j ++ "," ++ jsArrJoin js

/-- One element's contribution to `Array.prototype.join` (null joins as the
empty string). -/
def jsArrElemString : Json → String
  | .null => ""
  | j => jsToString j

end

/-- The JS `Number(...)` coercion on parsed-JSON values (arrays coerce via
their string form; plain objects coerce to NaN). -/
def jsNumberOfJson : Json → JsNum
  | .null => .finite 0
  | .bool b => .finite (if b then 1 else 0)
  | .num q => .finite q
  | .str s => jsNumber s
  | .arr es => jsNumber (jsArrJoin es)
  | .obj _ => .nan

/-- The error taxonomy of the sources.  `syntaxError` stands for the JS
`SyntaxError` that `JSON.parse` throws and `nativeTypeError` for a JS
runtime `TypeError` (both only ever observed through the `catch` blocks
that re-wrap them). -/
inductive CfgError where
  | undefinedEnvVar (key : String) : CfgError
  | unsupportedType (type : String) : CfgError
  | typeConversion (value target : String) : CfgError
  | undefinedConfigValue (key : String) : CfgError
  | syntaxError : CfgError
  | nativeTypeError : CfgError
deriving DecidableEq, Repr

/-- The two host builtins whose exact behaviour no claim depends on,
abstracted at the interface boundary: generic `new Date(string)` parsing
(`some` milliseconds when the date is valid, `none` when `toJSON()` would be
null) and `new RegExp(string)` construction success. -/
structure JsRuntime where
  dateParse : String → Option Rat
  regexValid : String → Bool

/-- A concrete collaborator instance for evaluating witnesses: no string is
a parseable date, every pattern is a valid regular expression. -/
def plainJsRuntime : JsRuntime where
  dateParse := fun _ => none
  regexValid := fun _ => true

/-- The `NestableDataTypes` enum values — the exact (case-sensitive) keys of
the `nestableConversionFunctions` table in `src/utils/typeConverter.ts`. -/
def nestableTokens : List String :=
  ["string", "number", "boolean", "Date", "RegExp", "object"]

/-- Embeds `convertToNumber` applied to a raw JS value (the table functions
receive container elements untouched, so the `Number(value)` coercion runs on
the raw value). -/
def convertToNumberJs (item : Json) : Except CfgError CNode :=
  let num := jsNumberOfJson item
  if num = .nan then .error (.typeConversion (jsToString item) "number")
  else .ok (.vNum num)

/-- Embeds `convertToNumber` of `src/utils/typeConverter.ts`: `Number(value)`
then a NaN check. -/
def convertToNumber (value : String) : Except CfgError CNode :=
  convertToNumberJs (.str value)

/-- Embeds `convertToBoolean`: case-insensitive membership in the truthy and
falsy literal sets.  On a non-string value, `value.toLowerCase()` is not a
function and JS throws a `TypeError`, embedded as `nativeTypeError` (the only
call sites passing non-strings sit inside `catch` blocks that re-wrap it). -/
def convertToBooleanJs (item : Json) : Except CfgError CNode :=
  match item with
  | .str value =>
    let truthyValues := ["t", "true", "y", "yes", "on"]
    let falsyValues := ["f", "false", "n", "no", "off"]
    let lowercaseVal := jsToLowerCase value
    if truthyValues.contains lowercaseVal then .ok (.vBool true)
    else if falsyValues.contains lowercaseVal then .ok (.vBool false)
    else .error (.typeConversion value "boolean")
  | _ => .error .nativeTypeError

/-- Embeds `convertToBoolean` on its declared string argument. -/
def convertToBoolean (value : String) : Except CfgError CNode :=
  convertToBooleanJs (.str value)

/-- Embeds `convertToDate`: a non-NaN `Number(value)` is taken as an epoch
timestamp; otherwise `new Date(value)` generic parsing is attempted (the
`JsRuntime` collaborator), failing when `toJSON()` would be null. -/
def convertToDateJs (rt : JsRuntime) (item : Json) : Except CfgError CNode :=
  let num := jsNumberOfJson item
  if num ≠ .nan then .ok (.vDate num)
  else
    match item with
    | .str s =>
      match rt.dateParse s with
      | some ms => .ok (.vDate (.finite ms))
      | none => .error (.typeConversion s "Date")
    | _ => .error (.typeConversion (jsToString item) "Date")

/-- Embeds `convertToDate` on its declared string argument. -/
def convertToDate (rt : JsRuntime) (value : String) : Except CfgError CNode :=
  convertToDateJs rt (.str value)

/-- Embeds `convertToRegExp`: `new RegExp(value)` (which coerces its argument
to a string), failing on an invalid pattern. -/
def convertToRegExpJs (rt : JsRuntime) (item : Json) : Except CfgError CNode :=
  let s := jsToString item
  if rt.regexValid s then .ok (.vRegExp s)
  else .error (.typeConversion s "RegExp")

/-- Embeds `convertToRegExp` on its declared string argument. -/
def convertToRegExp (rt : JsRuntime) (value : String) : Except CfgError CNode :=
  convertToRegExpJs rt (.str value)

/-- Embeds `convertToObject`: `JSON.parse(value)` (coercing the argument to a
string), failing on a parse error. -/
def convertToObjectJs (item : Json) : Except CfgError CNode :=
  let s := jsToString item
  match jsonParse s with
  | some j => .ok (jsonAsCNode j)
  | none => .error (.typeConversion s "object")

/-- Embeds `convertToObject` on its declared string argument. -/
def convertToObject (value : String) : Except CfgError CNode :=
  convertToObjectJs (.str value)

/-- Embeds `convertToNestableType`: dispatch over the exact keys of the
`nestableConversionFunctions` table, raising `UnsupportedTypeError` for any
other token. -/
def convertToNestableType (rt : JsRuntime) (type : String) (item : Json) :
    Except CfgError CNode :=
  if type = "string" then .ok (.vStr (jsToString item))
  else if type = "number" then convertToNumberJs item
  else if type = "boolean" then convertToBooleanJs item
  else if type = "Date" then convertToDateJs rt item
  else if type = "RegExp" then convertToRegExpJs rt item
  else if type = "object" then convertToObjectJs item
  else .error (.unsupportedType type)

/-- Embeds the shared `catch` block of the container converters: an
`UnsupportedTypeError` is re-thrown as such, every other failure is wrapped
into `TypeConversionError(value, target)`. -/
def rewrapContainer (value target : String) :
    Except CfgError α → Except CfgError α
  | .ok x => .ok x
  | .error (.unsupportedType t) => .error (.unsupportedType t)
  | .error _ => .error (.typeConversion value target)

/-- The `try` body of `convertToArray`: parse as JSON, require an array, then
convert each element whose `typeof` is not already the requested type. -/
def convertToArrayBody (rt : JsRuntime) (value : String) (type : String) :
    Except CfgError (List CNode) :=
  match jsonParse value with
  | none => .error .syntaxError
  | some (.arr elems) =>
    elems.mapM fun item =>
      if typeofJson item = type then pure (jsonAsCNode item)
      else convertToNestableType rt type item
  | some _ => .error (.typeConversion value "Array")

/-- Embeds `convertToArray` of `src/utils/typeConverter.ts`; a missing
subtype defaults to `"string"`. -/
def convertToArray (rt : JsRuntime) (value : String) (typeOpt : Option String) :
    Except CfgError (List CNode) :=
  let type := typeOpt.getD "string"
  rewrapContainer value ("Array<" ++ type ++ ">") (convertToArrayBody rt value type)

/-- SameValueZero equality on the primitive runtime values a `Set` or `Map`
deduplicates by value (strings, numbers with NaN equal to itself, booleans,
null); distinct object references never compare equal. -/
def sameValueZero : CNode → CNode → Bool
  | .vStr a, .vStr b => a = b
  | .vNum a, .vNum b => a = b
  | .vBool a, .vBool b => a = b
  | .vNull, .vNull => true
  | _, _ => false

/-- Keep the first occurrence of each SameValueZero-equal element, which is
what `new Set(array)` retains. -/
def dedupSVZ : List CNode → List CNode
  | [] => []
  | x :: xs => x :: (dedupSVZ xs).filter (fun y => !sameValueZero x y)

/-- Embeds `convertToSet`: convert to an array, build a `Set` from it, with
the same `catch` re-wrapping as the other containers. -/
def convertToSet (rt : JsRuntime) (value : String) (typeOpt : Option String) :
    Except CfgError (List CNode) :=
  let type := typeOpt.getD "string"
  rewrapContainer value ("Set<" ++ type ++ ">")
    ((convertToArray rt value typeOpt).map dedupSVZ)

/-- The `Object.entries(...)` builtin on a parsed-JSON value: object members,
array indices, string indices, nothing for other primitives, and a JS
`TypeError` on null. -/
def jsObjectEntries : Json → Except CfgError (List (String × Json))
  | .obj m => .ok m
  | .arr a => .ok (a.enum.map fun p => (toString p.1, p.2))
  | .str s => .ok (s.data.enum.map fun p => (toString p.1, .str (String.singleton p.2)))
  | .num _ => .ok []
  | .bool _ => .ok []
  | .null => .error .nativeTypeError

/-- `Map.prototype.set` on an association list: overwrite the value of a
SameValueZero-equal key in place, else append. -/
def jsMapSet (entries : List (CNode × CNode)) (k v : CNode) :
    List (CNode × CNode) :=
  match entries with
  | [] => [(k, v)]
  | (k', v') :: rest =>
    if sameValueZero k' k then (k', v) :: rest
    else (k', v') :: jsMapSet rest k v

/-- The `try` body of `convertToMap`: parse as JSON, walk `Object.entries`,
convert every key (always a string) and every value (coerced to a string
first unless its `typeof` already matches) and collect them with `map.set`. -/
def convertToMapBody (rt : JsRuntime) (value : String)
    (keyType valueType : String) : Except CfgError (List (CNode × CNode)) :=
  match jsonParse value with
  | none => .error .syntaxError
  | some j => do
    let entries ← jsObjectEntries j
    let converted ← entries.mapM fun kv => do
      let convertedKey ← convertToNestableType rt keyType (.str kv.1)
      let convertedVal ←
        if typeofJson kv.2 = valueType then pure (jsonAsCNode kv.2)
        else convertToNestableType rt valueType (.str (jsToString kv.2))
      pure (convertedKey, convertedVal)
    pure (converted.foldl (fun m p => jsMapSet m p.1 p.2) [])

/-- Embeds `convertToMap`; missing key and value subtypes default to
`"string"`. -/
def convertToMap (rt : JsRuntime) (value : String)
    (keyTypeOpt valueTypeOpt : Option String) :
    Except CfgError (List (CNode × CNode)) :=
  let keyType := keyTypeOpt.getD "string"
  let valueType := valueTypeOpt.getD "string"
  rewrapContainer value ("Map<" ++ keyType ++ ", " ++ valueType ++ ">")
    (convertToMapBody rt value keyType valueType)

/-- The character class `[A-Z0-9_]` of the variable-name capture groups in
both regular expressions of `expandEnvVar`. -/
def isNameChar (c : Char) : Bool :=
  ('A' ≤ c ∧ c ≤ 'Z') || c.isDigit || c = '_'

/-- The regex word class `\w`, i.e. `[A-Za-z0-9_]`, used by the `TYPE` and
subtype capture groups. -/
def isWordChar (c : Char) : Bool :=
  ('a' ≤ c ∧ c ≤ 'z') || ('A' ≤ c ∧ c ≤ 'Z') || c.isDigit || c = '_'

/-- A snapshot of the environment-variable store as the expansion engine
reads it: the lookup the cache-backed `getValueFromEnv` performs.  (Lazily
caching an absent key stores an explicit undefined marker and changes no
subsequent read, so the store is observationally this pure lookup.) -/
def EnvLookup : Type := String → Option String

/-- An optional `:` followed by a non-empty greedy `\w+` run, as matched by
each optional subtype group of the typed-substitution regex. -/
def colonWord (cs : List Char) : Option String × List Char :=
  match cs with
  | ':' :: cs1 =>
    let w := cs1.takeWhile isWordChar
    if w.isEmpty then (none, cs)
    else (some ⟨w⟩, cs1.dropWhile isWordChar)
  | _ => (none, cs)

/-- The anchored typed-substitution regular expression of `expandEnvVar`,
`^\$([A-Z0-9_]+)(?:::(\w+))?(?::(\w+))?(?::(\w+))?$`, as a deterministic
matcher: name, optional `::TYPE`, up to two optional `:SUBTYPE` groups, end
of string.  (Greedy matching without backtracking is complete here: every
run is delimited by characters outside its class, and shortening a run
always strands a character no later group can consume.) -/
def matchTyped (input : String) :
    Option (String × Option String × Option String × Option String) :=
  match input.data with
  | '$' :: rest =>
    let nameCs := rest.takeWhile isNameChar
    if nameCs.isEmpty then none
    else
      let rest1 := rest.dropWhile isNameChar
      let (typeOpt, rest2) :=
        match rest1 with
        | ':' :: ':' :: cs =>
          let w := cs.takeWhile isWordChar
          if w.isEmpty then (none, rest1)
          else (some (⟨w⟩ : String), cs.dropWhile isWordChar)
        | _ => (none, rest1)
      let (sub1, rest3) := colonWord rest2
      let (sub2, rest4) := colonWord rest3
      if rest4.isEmpty then some (⟨nameCs⟩, typeOpt, sub1, sub2) else none
  | _ => none

/-- Embeds `Config.getStringFromEnv`: the raw environment value, raising
`UndefinedEnvVarError` when the variable is undefined. -/
def getStringFromEnv (env : EnvLookup) (key : String) : Except CfgError String :=
  match env key with
  | some value => .ok (value)
  | none => .error (.undefinedEnvVar key)

/-- After the characters `$\x7b`, the name capture of the inline regex: a
non-empty `[A-Z0-9_]+` run immediately closed by `\x7d` yields the name and
the characters after the closing brace. -/
def refNameSplit (rest1 : List Char) : Option (List Char × List Char) :=
  match rest1.takeWhile isNameChar, rest1.dropWhile isNameChar with
  | name :: names, '\x7d' :: rest2 => some (name :: names, rest2)
  | _, _ => none

/-- The global-flag scan of `input.replace(/\$\{([A-Z0-9_]+)\}/g, ...)`
with the environment value substituted for each match: on a match the
variable is resolved (raising `UndefinedEnvVarError` when absent) and the
scan resumes after the match; on a failed match the scan advances one
character past the `$`.  The fuel argument only bounds the recursion (each
step consumes at least one input character, so the input length suffices,
and the exhaustion branch is unreachable from `replaceRefs`). -/
def replaceRefsGo (env : EnvLookup) : Nat → List Char → Except CfgError (List Char)
  | 0, l => .ok l
  | _ + 1, [] => .ok []
  | fuel + 1, c :: rest =>
    if c = '$' then
      match rest with
      | c2 :: rest1 =>
        if c2 = '\x7b' then
          match refNameSplit rest1 with
          | some (name, rest2) => do
            let v ← getStringFromEnv env ⟨name⟩
            let tail ← replaceRefsGo env fuel rest2
            pure (v.data ++ tail)
          | none => do
            let tail ← replaceRefsGo env fuel rest
            pure ('$' :: tail)
        else do
          let tail ← replaceRefsGo env fuel rest
          pure ('$' :: tail)
      | [] => do
        let tail ← replaceRefsGo env fuel rest
        pure ('$' :: tail)
    else do
      let tail ← replaceRefsGo env fuel rest
      pure (c :: tail)

/-- String-level wrapper for the inline-interpolation replacement pass. -/
def replaceRefs (env : EnvLookup) (input : String) : Except CfgError String :=
  (replaceRefsGo env (input.length + 1) input.data).map fun cs => ⟨cs⟩

/-- Embeds `getNumberFromEnv`: resolve the variable, then convert. -/
def getNumberFromEnv (env : EnvLookup) (key : String) : Except CfgError CNode := do
  let value ← getStringFromEnv env key
  convertToNumber value

/-- Embeds `getBooleanFromEnv`. -/
def getBooleanFromEnv (env : EnvLookup) (key : String) : Except CfgError CNode := do
  let value ← getStringFromEnv env key
  convertToBoolean value

/-- Embeds `getDateFromEnv`. -/
def getDateFromEnv (rt : JsRuntime) (env : EnvLookup) (key : String) :
    Except CfgError CNode := do
  let value ← getStringFromEnv env key
  convertToDate rt value

/-- Embeds `getRegExpFromEnv`. -/
def getRegExpFromEnv (rt : JsRuntime) (env : EnvLookup) (key : String) :
    Except CfgError CNode := do
  let value ← getStringFromEnv env key
  convertToRegExp rt value

/-- Embeds `getObjectFromEnv`. -/
def getObjectFromEnv (env : EnvLookup) (key : String) : Except CfgError CNode := do
  let value ← getStringFromEnv env key
  convertToObject value

/-- Embeds `getArrayFromEnv`. -/
def getArrayFromEnv (rt : JsRuntime) (env : EnvLookup) (key : String)
    (type : Option String) : Except CfgError CNode := do
  let value ← getStringFromEnv env key
  (convertToArray rt value type).map .vArr

/-- Embeds `getSetFromEnv`. -/
def getSetFromEnv (rt : JsRuntime) (env : EnvLookup) (key : String)
    (type : Option String) : Except CfgError CNode := do
  let value ← getStringFromEnv env key
  (convertToSet rt value type).map .vSet

/-- Embeds `getMapFromEnv`. -/
def getMapFromEnv (rt : JsRuntime) (env : EnvLookup) (key : String)
    (keyType valueType : Option String) : Except CfgError CNode := do
  let value ← getStringFromEnv env key
  (convertToMap rt value keyType valueType).map .vMap

/-- Embeds `Config.expandEnvVar` of `src/simple-app-config.ts`: an input
starting with `$` that fully matches the typed-substitution regex dispatches
on the lower-cased type token (defaulting to `string`), raising
`UnsupportedTypeError` on an unrecognised token; every other input runs the
inline `${NAME}` string replacement. -/
def expandEnvVar (rt : JsRuntime) (env : EnvLookup) (input : String) :
    Except CfgError CNode :=
  let strBranch : Except CfgError CNode := (replaceRefs env input).map .vStr
  if jsStartsWith input "$" then
    match matchTyped input with
    | some (varName, typeOpt, subtype1, subtype2) =>
      let type := typeOpt.getD "string"
      let t := jsToLowerCase type
      if t = "string" then (getStringFromEnv env varName).map .vStr
      else if t = "number" then getNumberFromEnv env varName
      else if t = "boolean" then getBooleanFromEnv env varName
      else if t = "date" then getDateFromEnv rt env varName
      else if t = "regexp" then getRegExpFromEnv rt env varName
      else if t = "object" then getObjectFromEnv env varName
      else if t = "array" then getArrayFromEnv rt env varName subtype1
      else if t = "set" then getSetFromEnv rt env varName subtype1
      else if t = "map" then getMapFromEnv rt env varName subtype1 subtype2
      else .error (.unsupportedType type)
    | none => strBranch
  else strBranch

/-- `Map.prototype.has` on an association list (SameValueZero key equality,
as the JS `Map` uses). -/
def jsMapHas (entries : List (CNode × CNode)) (k : CNode) : Bool :=
  entries.any fun p => sameValueZero p.1 k

/-- `Map.prototype.get` on an association list. -/
def jsMapGet (entries : List (CNode × CNode)) (k : CNode) : Option CNode :=
  (entries.find? fun p => sameValueZero p.1 k).map (·.2)

mutual

/-- Embeds `Config.convertJSONToMap` of `src/simple-app-config.ts`: arrays
convert element-wise, strings run the expansion engine, other scalars pass
through unchanged, and objects become a `Map` whose string values are
expanded and whose other values recurse. -/
def convertJSONToMap (rt : JsRuntime) (env : EnvLookup) :
    Json → Except CfgError CNode
  | .arr es => (convertJSONList rt env es).map .vArr
  | .null => .ok .vNull
  | .bool b => .ok (.vBool b)
  | .num q => .ok (.vNum (.finite q))
  | .str s => expandEnvVar rt env s
  | .obj entries => (convertJSONEntries rt env entries).map .vMap

/-- Element-wise conversion of a JSON array (the `config.map(...)` call). -/
def convertJSONList (rt : JsRuntime) (env : EnvLookup) :
    List Json → Except CfgError (List CNode)
  | [] => .ok []
  | j :: js => do
    let c ← convertJSONToMap rt env j
    let rest ← convertJSONList rt env js
    pure (c :: rest)

/-- Entry-wise conversion of a JSON object into `Map` entries (the
`Object.entries(config).forEach(...)` loop); keys stay strings. -/
def convertJSONEntries (rt : JsRuntime) (env : EnvLookup) :
    List (String × Json) → Except CfgError (List (CNode × CNode))
  | [] => .ok []
  | (k, v) :: rest => do
    let cv ←
      match v with
      | .str s => expandEnvVar rt env s
      | _ => convertJSONToMap rt env v
    let tail ← convertJSONEntries rt env rest
    pure ((.vStr k, cv) :: tail)

end

/-- Embeds `Config.parseJSON`: `JSON.parse` the file text (a failure is the
uncaught `SyntaxError`), then process the result into a map. -/
def parseJSON (rt : JsRuntime) (env : EnvLookup) (file : String) :
    Except CfgError CNode :=
  match jsonParse file with
  | none => .error .syntaxError
  | some config => convertJSONToMap rt env config

/-- Embeds the merge loop at the end of `Config.loadConfigAndPopulate`
(`for key of map.keys(): if (!configMap.has(key)) configMap.set(key, map.get(key))`):
each key of the newly parsed map is inserted into the global map only when
absent there.  (A `Map`'s keys are unique, so `map.get(key)` is the entry's
own value.) -/
def mergeDefaults (configMap newMap : List (CNode × CNode)) :
    List (CNode × CNode) :=
  newMap.foldl
    (fun acc p => if jsMapHas acc p.1 then acc else jsMapSet acc p.1 p.2)
    configMap

/-- Lifts the merge loop to the runtime value `parseJSON` returned: a `Map`
merges entry by entry; a JS array supports `.keys()` (indices) but not
`.get`, so a non-empty array root is a runtime `TypeError`, and any other
value has no `.keys` method at all. -/
def mergeIntoConfigMap (configMap : List (CNode × CNode)) :
    CNode → Except CfgError (List (CNode × CNode))
  | .vMap entries => .ok (mergeDefaults configMap entries)
  | .vArr [] => .ok configMap
  | _ => .error .nativeTypeError

/-- File-system collaborator: the files (with contents) and directories that
exist.  `existsSync`, `statSync().isDirectory()` and `readFileSync` read
this model. -/
structure FSModel where
  files : List (String × String)
  dirs : List String

/-- The `fs.existsSync` builtin. -/
def fsExists (fs : FSModel) (p : String) : Bool :=
  (fs.files.lookup p).isSome || fs.dirs.contains p

/-- The `fs.statSync(p).isDirectory()` builtin. -/
def fsIsDir (fs : FSModel) (p : String) : Bool :=
  fs.dirs.contains p

/-- The `fs.readFileSync(p, 'utf8')` builtin (call sites only read paths they
validated to exist). -/
def fsRead (fs : FSModel) (p : String) : String :=
  (fs.files.lookup p).getD ""

/-- The Node `path.extname` builtin: the suffix of the basename from its last
dot, empty when there is no dot or the only dot leads the basename. -/
def extname (p : String) : String :=
  let base := (((jsSplitChar p '/').getLastD "")).data
  match base.reverse.findIdx? (· = '.') with
  | none => ""
  | some r =>
    let i := base.length - 1 - r
    if i = 0 then "" else ⟨base.drop i⟩

/-- The `FileTypes` enum: the supported config-file extensions. -/
def configFileTypes : List String := [".json"]

/-- Embeds `Config.isValidEnvFile`: the file merely has to exist. -/
def isValidEnvFile (fs : FSModel) (path : String) : Bool :=
  fsExists fs path

/-- Embeds `Config.isValidConfigFile`: exists, not a directory, supported
extension, non-empty after trimming. -/
def isValidConfigFile (fs : FSModel) (filePath : String) : Bool :=
  if !fsExists fs filePath then false
  else if fsIsDir fs filePath then false
  else if !configFileTypes.contains (extname filePath) then false
  else if jsTrim (fsRead fs filePath) = "" then false
  else true

/-- Embeds `Config.loadConfigAndPopulate`: read and trim the file, parse it
(every supported extension takes the JSON branch of the `switch`), and merge
the result into the global config map first-writer-wins. -/
def loadConfigAndPopulate (rt : JsRuntime) (fs : FSModel) (env : EnvLookup)
    (filePath : String) (configMap : List (CNode × CNode)) :
    Except CfgError (List (CNode × CNode)) := do
  let file := jsTrim (fsRead fs filePath)
  let map ← parseJSON rt env file
  mergeIntoConfigMap configMap map

/-- Embeds `Config.get`: split the key on `.`, walk the nested maps, and
raise `UndefinedConfigValueError` as soon as a step is not a `Map` containing
the segment. -/
def configGet (configMap : List (CNode × CNode)) (key : String) :
    Except CfgError CNode :=
  go (.vMap configMap) (jsSplitChar key '.')
where
  /-- The iterative descent of `Config.get`. -/
  go : CNode → List String → Except CfgError CNode
    | cur, [] => .ok cur
    | cur, part :: rest =>
      match cur with
      | .vMap entries =>
        match jsMapGet entries (.vStr part) with
        | some next => go next rest
        | none => .error (.undefinedConfigValue key)
      | _ => .error (.undefinedConfigValue key)

/-- The `arg.split('=')[1]` idiom used to read a `--flag=value` argument:
the piece between the first and second `=`. -/
def argValue (arg : String) : String :=
  ((jsSplitChar arg '=').getD 1 "")

/-- `Set.prototype.add` on an insertion-ordered list. -/
def addUnique (l : List String) (x : String) : List String :=
  if l.contains x then l else l ++ [x]

/-- `Map.prototype.set` for string-keyed maps: update in place or append. -/
def assocSet (m : List (String × α)) (k : String) (v : α) : List (String × α) :=
  match m with
  | [] => [(k, v)]
  | (k', v') :: rest =>
    if k' = k then (k', v) :: rest else (k', v') :: assocSet rest k v

/-- Embeds `Config.determineEnvironment` of `src/simple-app-config.ts`: the
first `--env=` command-line argument wins (lower-cased); otherwise a defined
`NODE_ENV` wins (lower-cased); otherwise the current environment stays. -/
def determineEnvironment (argv : List String)
    (processEnv : List (String × String)) (current : String) : String :=
  match argv.find? (jsStartsWith · "--env=") with
  | some arg => jsToLowerCase (argValue arg)
  | none =>
    match processEnv.lookup "NODE_ENV" with
    | some environment => jsToLowerCase environment
    | none => current

/-- Embeds `Config.setEnvironmentNames`: a `--env-names=` argument replaces
the registry with its comma-separated names; otherwise a defined `ENV_NAMES`
variable does; otherwise the registry is untouched. -/
def setEnvironmentNames (argv : List String)
    (processEnv : List (String × String)) (environments : List String) :
    List String :=
  match argv.find? (jsStartsWith · "--env-names=") with
  | some arg => (jsSplitChar (argValue arg) ',').foldl addUnique []
  | none =>
    match processEnv.lookup "ENV_NAMES" with
    | some arg => (jsSplitChar arg ',').foldl addUnique []
    | none => environments

/-- Embeds `Config.setPaths`: for every registered environment set its
`.env` path and its set of candidate config paths (one per supported
extension), and add the default config candidates. -/
def setPaths (environments : List String)
    (envPaths : List (String × String))
    (configPaths : List (String × List String))
    (defaultConfigPaths : List String) :
    List (String × String) × List (String × List String) × List String :=
  let step := environments.foldl
    (fun acc env =>
      (assocSet acc.1 env (".env." ++ env),
       assocSet acc.2 env
         (configFileTypes.foldl
           (fun paths ft => paths ++ ["config/" ++ env ++ ft]) [])))
    (envPaths, configPaths)
  let dcp := configFileTypes.foldl
    (fun acc ft => addUnique acc ("config/default" ++ ft)) defaultConfigPaths
  (step.1, step.2, dcp)

/-- The `dotenv.config` effect on the process environment: each parsed entry
is set only when the variable is not already defined. -/
def applyDotenv (processEnv : List (String × String))
    (entries : List (String × String)) : List (String × String) :=
  entries.foldl
    (fun pe p => if (pe.lookup p.1).isSome then pe else pe ++ [p]) processEnv

/-- Embeds `Config.loadEnvFile`: the first `--env-path=` argument whose path
exists is loaded; otherwise a defined-and-existing `ENV_PATH`; otherwise the
path registered for the current environment; otherwise nothing. -/
def loadEnvFile (argv : List String) (processEnv : List (String × String))
    (envPaths : List (String × String)) (environment : String) (fs : FSModel)
    (denv : String → List (String × String)) : List (String × String) :=
  let fromEnvPaths :=
    match envPaths.lookup environment with
    | some path =>
      if isValidEnvFile fs path then applyDotenv processEnv (denv (fsRead fs path))
      else processEnv
    | none => processEnv
  match argv.find?
      (fun arg => jsStartsWith arg "--env-path=" ∧ isValidEnvFile fs (argValue arg)) with
  | some arg => applyDotenv processEnv (denv (fsRead fs (argValue arg)))
  | none =>
    match processEnv.lookup "ENV_PATH" with
    | some path =>
      if isValidEnvFile fs path then applyDotenv processEnv (denv (fsRead fs path))
      else fromEnvPaths
    | none => fromEnvPaths

/-- Embeds `Config.refreshEnvCache`: clear the cache and snapshot every
process environment variable into it. -/
def refreshEnvCache (processEnv : List (String × String)) :
    List (String × Option String) :=
  processEnv.map fun p => (p.1, some p.2)

/-- Embeds `Config.getValueFromEnv` as the pure lookup it observably is:
cache first, then the process environment.  (A miss also writes an explicit
undefined marker into the cache; no later read can distinguish that, so the
embedding elides the write.) -/
def envLookupOf (envCache : List (String × Option String))
    (processEnv : List (String × String)) : EnvLookup := fun k =>
  match envCache.lookup k with
  | some v => v
  | none => processEnv.lookup k

/-- Embeds `Config.loadConfigFile`: the first `--config-path=` argument whose
path is a valid config file is loaded; otherwise a defined-and-valid
`CONFIG_PATH`; otherwise the first valid candidate registered for the
current environment; otherwise nothing. -/
def loadConfigFile (argv : List String) (processEnv : List (String × String))
    (configPaths : List (String × List String)) (environment : String)
    (fs : FSModel) (rt : JsRuntime) (env : EnvLookup)
    (configMap : List (CNode × CNode)) :
    Except CfgError (List (CNode × CNode)) :=
  let fromConfigPaths :=
    match configPaths.lookup environment with
    | some paths =>
      match paths.find? (isValidConfigFile fs) with
      | some path => loadConfigAndPopulate rt fs env path configMap
      | none => .ok configMap
    | none => .ok configMap
  match argv.find?
      (fun arg => jsStartsWith arg "--config-path=" ∧ isValidConfigFile fs (argValue arg)) with
  | some arg => loadConfigAndPopulate rt fs env (argValue arg) configMap
  | none =>
    match processEnv.lookup "CONFIG_PATH" with
    | some path =>
      if isValidConfigFile fs path then loadConfigAndPopulate rt fs env path configMap
      else fromConfigPaths
    | none => fromConfigPaths

/-- Embeds `Config.loadDefaultConfigFile`: the first valid default candidate
is loaded, if any. -/
def loadDefaultConfigFile (fs : FSModel) (rt : JsRuntime) (env : EnvLookup)
    (defaultConfigPaths : List String) (configMap : List (CNode × CNode)) :
    Except CfgError (List (CNode × CNode)) :=
  match defaultConfigPaths.find? (isValidConfigFile fs) with
  | some path => loadConfigAndPopulate rt fs env path configMap
  | none => .ok configMap

/-- The module state of the `Config` class (`src/simple-app-config.ts`),
together with the process environment it mutates through `dotenv`. -/
structure ConfigState where
  environment : String
  environments : List String
  defaultConfigPaths : List String
  envPaths : List (String × String)
  configPaths : List (String × List String)
  envCache : List (String × Option String)
  configMap : List (CNode × CNode)
  alreadyConfigured : Bool
  processEnv : List (String × String)

/-- The initial module state (the class field initialisers). -/
def initialConfigState (processEnv : List (String × String)) : ConfigState :=
  ⟨"development", ["development", "testing", "staging", "production"],
    [], [], [], [], [], false, processEnv⟩

/-- The world a configuration pass reads: the argument vector, the file
system, the `.env`-syntax parser collaborator (file text to entries) and the
`JsRuntime` collaborator. -/
structure ConfigInput where
  argv : List String
  fs : FSModel
  dotenvParse : String → List (String × String)
  rt : JsRuntime

/-- The body of `Config.configure` past its guard, in source order:
`setEnvironmentNames`, `determineEnvironment`, `setPaths`, `loadEnvFile`,
`refreshEnvCache`, `loadConfigFile`, `loadDefaultConfigFile`, then the
already-configured flag is set. -/
def configurePass (inp : ConfigInput) (s : ConfigState) :
    Except CfgError ConfigState := do
  let environments := setEnvironmentNames inp.argv s.processEnv s.environments
  let environment := determineEnvironment inp.argv s.processEnv s.environment
  let paths := setPaths environments s.envPaths s.configPaths s.defaultConfigPaths
  let processEnv :=
    loadEnvFile inp.argv s.processEnv paths.1 environment inp.fs inp.dotenvParse
  let envCache := refreshEnvCache processEnv
  let env := envLookupOf envCache processEnv
  let configMap1 ←
    loadConfigFile inp.argv processEnv paths.2.1 environment inp.fs inp.rt env
      s.configMap
  let configMap2 ←
    loadDefaultConfigFile inp.fs inp.rt env paths.2.2 configMap1
  pure ⟨environment, environments, paths.2.2, paths.1, paths.2.1, envCache,
    configMap2, true, processEnv⟩

/-- Embeds `Config.configure(force?: boolean)`: return immediately exactly
when the module is already configured and `force` is literally `false`;
otherwise run the whole pass. -/
def configure (force : Option Bool) (inp : ConfigInput) (s : ConfigState) :
    Except CfgError ConfigState :=
  if s.alreadyConfigured = true ∧ force = some false then .ok s
  else configurePass inp s

/-- Modelled from the spec: the §4.1 security invariant requires every
candidate path's canonicalized form to lie inside the project root.  The
repository's released documentation (README: paths outside the project root
"will be ignored for security reasons", via app-root-path; CHANGELOG 1.1.0:
"input must not be outside the root dir of the project") describes this
check, but no source file in the snapshot implements it.  A relative
candidate path escapes the root exactly when resolving its `..` segments
ever climbs above the root directory. -/
def pathEscapesRoot (p : String) : Bool :=
  ((jsSplitChar p '/').foldl
    (fun st seg =>
      match st with
      | none => none
      | some d =>
        if seg = "" ∨ seg = "." then some d
        else if seg = ".." then (if d = 0 then none else some (d - 1))
        else some (d + 1))
    (some (0 : Nat))).isNone

/-- Environment-variable snapshot used by concrete witnesses: the `MAP`
variable of the spec's concrete scenario. -/
def envWitness : EnvLookup := fun k =>
  if k = "MAP" then some "\x7b\"cat\":\"test\",\"bat\":\"test\"\x7d" else none

/-- A file system holding one real, non-empty JSON file that lies outside
the project root. -/
def fsOutsideRoot : FSModel :=
  ⟨[("../secret.json", "\x7b\"a\": 1\x7d")], []⟩

/-- The environment-document tree of the C1 counterexample: top-level key
`a` maps to a nested mapping that has `x` but not `y`. -/
def envDocTree : List (CNode × CNode) :=
  [(.vStr "a", .vMap [(.vStr "x", .vNum (.finite 1))])]

/-- The default-document map of the C1 counterexample: under the same
top-level key `a`, the nested mapping also has `y`. -/
def defaultDocTree : List (CNode × CNode) :=
  [(.vStr "a", .vMap [(.vStr "x", .vNum (.finite 1)),
    (.vStr "y", .vNum (.finite 2))])]

/-- Whether a runtime value is SameValueZero-reflexive, i.e. a primitive
(JSON object keys always are: they are strings). -/
def svzReflexive (k : CNode) : Bool := sameValueZero k k

/-- Concrete world for the C9 witness: a `--env=production` argument, no
files at all. -/
def c9Input : ConfigInput :=
  ⟨["--env=production"], ⟨[], []⟩, fun _ => [], plainJsRuntime⟩

/-- Concrete already-configured state for the C9 witness. -/
def c9State : ConfigState :=
  ⟨"development", ["development", "testing", "staging", "production"],
    [], [], [], [], [], true, []⟩

/-- C6 counterexample: `convertToNumber "Infinity"` parses to the non-finite
value `Infinity` and succeeds, returning it — it does not raise
`TypeConversionError` as the claim demands for every non-finite parse. -/
theorem convertToNumber_infinity_succeeds :
    convertToNumber "Infinity" = .ok (.vNum .inf) ∧
    ∀ e : CfgError, convertToNumber "Infinity" ≠ .error e := by
  refine ⟨rfl, ?_⟩
  intro e h
  exact Except.noConfusion
    ((show convertToNumber "Infinity" = .ok (.vNum .inf) from rfl).symm.trans h)

/-- C6 amended: number conversion raises `TypeConversionError` exactly when
the numeric parse is NaN; every non-NaN parse — finite or infinite — is
returned as the parsed numeric value. -/
theorem convertToNumber_spec (value : String) :
    (jsNumber value = .nan →
      convertToNumber value = .error (.typeConversion value "number")) ∧
    (jsNumber value ≠ .nan →
      convertToNumber value = .ok (.vNum (jsNumber value))) := by
  constructor <;> intro h <;>
    simp [convertToNumber, convertToNumberJs, jsNumberOfJson, jsToString, h]

/-- Witness for the C6 amended theorem at the inputs `"abc"` (NaN parse,
fails) and `"Infinity"` (non-finite parse, succeeds). -/
theorem convertToNumber_spec_witness :
    (jsNumber "abc" = .nan ∧
      convertToNumber "abc" = .error (.typeConversion "abc" "number")) ∧
    (jsNumber "Infinity" ≠ .nan ∧
      convertToNumber "Infinity" = .ok (.vNum (jsNumber "Infinity"))) :=
  ⟨⟨by decide, (convertToNumber_spec "abc").1 (by decide)⟩,
   ⟨by decide, (convertToNumber_spec "Infinity").2 (by decide)⟩⟩

/-- C7: environment-name resolution obeys strict precedence — any `--env=`
argument decides the environment (lower-cased) no matter what `NODE_ENV`
holds; `NODE_ENV` (lower-cased) decides only when no `--env=` argument
exists; and only when neither is set does the prior default remain. -/
theorem determineEnvironment_precedence (argv : List String)
    (processEnv : List (String × String)) (current : String) :
    (∀ arg, argv.find? (jsStartsWith · "--env=") = some arg →
      determineEnvironment argv processEnv current = jsToLowerCase (argValue arg)) ∧
    (argv.find? (jsStartsWith · "--env=") = none →
      ∀ v, processEnv.lookup "NODE_ENV" = some v →
        determineEnvironment argv processEnv current = jsToLowerCase v) ∧
    (argv.find? (jsStartsWith · "--env=") = none →
      processEnv.lookup "NODE_ENV" = none →
      determineEnvironment argv processEnv current = current) := by
  unfold determineEnvironment
  refine ⟨?_, ?_, ?_⟩
  · intro arg h; rw [h]
  · intro h v hv; rw [h, hv]
  · intro h hv; rw [h, hv]

/-- Witness for C7: a CLI `--env=PRODUCTION` beats `NODE_ENV=development`;
`NODE_ENV=STAGING` is used when no CLI argument exists; the default stays
when neither is set. -/
theorem determineEnvironment_precedence_witness :
    (determineEnvironment ["--env=PRODUCTION"] [("NODE_ENV", "development")]
      "development" = "production") ∧
    (determineEnvironment [] [("NODE_ENV", "STAGING")] "development" =
      "staging") ∧
    (determineEnvironment [] [] "development" = "development") := by
  refine ⟨?_, ?_, ?_⟩
  · rw [(determineEnvironment_precedence ["--env=PRODUCTION"]
      [("NODE_ENV", "development")] "development").1 "--env=PRODUCTION"
      (by decide)]
    decide
  · rw [(determineEnvironment_precedence [] [("NODE_ENV", "STAGING")]
      "development").2.1 (by decide) "STAGING" (by decide)]
    decide
  · exact (determineEnvironment_precedence [] [] "development").2.2
      (by decide) (by decide)

/-- C4: a configuration key holding a backslash-escaped dot (the key `a\.b`)
is not retrievable through the dotted path `a\.b` — `Config.get` splits the
path on every dot, escaped or not, looks up the segments `a\` and `b`, and
raises `UndefinedConfigValueError`, contrary to the documented un-escaping. -/
theorem get_escaped_dot_counterexample :
    jsSplitChar "a\\.b" '.' = ["a\\", "b"] ∧
    configGet [(.vStr "a\\.b", .vStr "value")] "a\\.b" =
      .error (.undefinedConfigValue "a\\.b") := by
  exact ⟨rfl, rfl⟩

/-- C5: a non-empty JSON file whose canonicalized path lies outside the
project root is nevertheless accepted by `isValidConfigFile` and
`isValidEnvFile` — the sources perform no root-containment check at all. -/
theorem outside_root_path_accepted :
    pathEscapesRoot "../secret.json" = true ∧
    isValidConfigFile fsOutsideRoot "../secret.json" = true ∧
    isValidEnvFile fsOutsideRoot "../secret.json" = true := by
  decide

theorem svz_symm (a b : CNode) : sameValueZero a b = sameValueZero b a := by
  cases a <;> cases b <;> simp [sameValueZero, eq_comm]

theorem svz_trans {a b c : CNode} (h1 : sameValueZero a b = true)
    (h2 : sameValueZero b c = true) : sameValueZero a c = true := by
  cases a <;> cases b <;> simp_all [sameValueZero]

theorem jsMapHas_iff_get (m : List (CNode × CNode)) (k : CNode) :
    jsMapHas m k = true ↔ (jsMapGet m k).isSome := by
  simp [jsMapHas, jsMapGet, List.any_eq_true, List.find?_isSome]

theorem jsMapSet_absent (m : List (CNode × CNode)) (k v : CNode)
    (h : jsMapHas m k = false) : jsMapSet m k v = m ++ [(k, v)] := by
  induction m with
  | nil => rfl
  | cons p rest ih =>
    simp only [jsMapHas, List.any_cons, Bool.or_eq_false_iff] at h
    simp [jsMapSet, h.1, ih h.2]

theorem jsMapGet_append (m1 m2 : List (CNode × CNode)) (k : CNode) :
    jsMapGet (m1 ++ m2) k =
      (jsMapGet m1 k).orElse (fun _ => jsMapGet m2 k) := by
  simp only [jsMapGet, List.find?_append]
  cases List.find? (fun p => sameValueZero p.1 k) m1 <;> simp [Option.orElse]

theorem mergeDefaults_cons (cm : List (CNode × CNode)) (p : CNode × CNode)
    (rest : List (CNode × CNode)) :
    mergeDefaults cm (p :: rest) =
      mergeDefaults (if jsMapHas cm p.1 then cm else jsMapSet cm p.1 p.2)
        rest := rfl

/-- C1 amended: the first-writer-wins rule is applied at the top level only —
in the merged tree every key resolves to the already-loaded tree's value when
the key is present there and to the default document's value otherwise, so a
present top-level key keeps its entire subtree and nested default keys
beneath it are never filled in. -/
theorem merge_top_level_first_writer_wins (cm nm : List (CNode × CNode))
    (k : CNode) :
    jsMapGet (mergeDefaults cm nm) k =
      (jsMapGet cm k).orElse (fun _ => jsMapGet nm k) := by
  induction nm generalizing cm with
  | nil =>
    simp only [mergeDefaults, List.foldl_nil]
    cases jsMapGet cm k <;> simp [jsMapGet, Option.orElse]
  | cons p rest ih =>
    rw [mergeDefaults_cons, ih]
    by_cases hh : jsMapHas cm p.1
    · simp only [if_pos hh]
      by_cases hk : sameValueZero p.1 k
      · have hsome : (jsMapGet cm k).isSome := by
          rw [← jsMapHas_iff_get]
          simp only [jsMapHas, List.any_eq_true] at hh ⊢
          obtain ⟨e, he, hsvz⟩ := hh
          exact ⟨e, he, svz_trans (by simpa using hsvz) (by simpa using hk)⟩
        obtain ⟨v, hv⟩ := Option.isSome_iff_exists.mp hsome
        simp [hv, Option.orElse]
      · have : jsMapGet (p :: rest) k = jsMapGet rest k := by
          simp [jsMapGet, List.find?, hk]
        rw [this]
    · simp only [if_neg hh]
      rw [jsMapSet_absent _ _ _ (by simpa using hh), jsMapGet_append]
      cases hc : jsMapGet cm k with
      | some v => simp [Option.orElse]
      | none =>
        simp only [Option.orElse, Option.none_orElse]
        by_cases hk : sameValueZero p.1 k <;>
          simp [jsMapGet, List.find?, hk, Option.orElse]

/-- C1 counterexample: the default document defines the nested key `a.y` and
the environment document does not, yet after the merge `a.y` is still
missing, because the present top-level key `a` blocks the whole default
subtree — the merge is not applied recursively. -/
theorem merge_not_recursive_counterexample :
    configGet defaultDocTree "a.y" = .ok (.vNum (.finite 2)) ∧
    configGet envDocTree "a.y" = .error (.undefinedConfigValue "a.y") ∧
    mergeDefaults envDocTree defaultDocTree = envDocTree ∧
    configGet (mergeDefaults envDocTree defaultDocTree) "a.y" =
      .error (.undefinedConfigValue "a.y") := by
  exact ⟨rfl, rfl, rfl, rfl⟩

theorem jsMapHas_jsMapSet_mono (m : List (CNode × CNode)) (k k' v' : CNode)
    (h : jsMapHas m k = true) : jsMapHas (jsMapSet m k' v') k = true := by
  induction m with
  | nil => simp [jsMapHas] at h
  | cons p rest ih =>
    simp only [jsMapHas, List.any_cons, Bool.or_eq_true] at h
    by_cases hs : sameValueZero p.1 k'
    · simp only [jsMapSet, hs, if_pos]
      rcases h with h | h
      · simp [jsMapHas, h]
      · simp [jsMapHas, h]
    · simp only [jsMapSet, hs, if_neg, Bool.false_eq_true, not_false_iff]
      rcases h with h | h
      · simp [jsMapHas, h]
      · have := ih h
        simp [jsMapHas] at this ⊢
        tauto

theorem jsMapHas_merge_mono (cm d : List (CNode × CNode)) (k : CNode)
    (h : jsMapHas cm k = true) : jsMapHas (mergeDefaults cm d) k = true := by
  induction d generalizing cm with
  | nil => simpa [mergeDefaults]
  | cons p rest ih =>
    rw [mergeDefaults_cons]
    by_cases hh : jsMapHas cm p.1
    · simpa [hh] using ih cm h
    · simp only [hh, if_neg, Bool.false_eq_true, not_false_iff]
      exact ih _ (jsMapHas_jsMapSet_mono cm k p.1 p.2 h)

theorem jsMapHas_merge_of_mem (cm d : List (CNode × CNode))
    (p : CNode × CNode) (hrefl : sameValueZero p.1 p.1 = true) :
    p ∈ d → jsMapHas (mergeDefaults cm d) p.1 = true := by
  induction d generalizing cm with
  | nil => intro hp; simp at hp
  | cons q rest ih =>
    intro hp
    rw [mergeDefaults_cons]
    rcases List.mem_cons.mp hp with rfl | hmem
    · have hstep : jsMapHas
          (if jsMapHas cm p.1 then cm else jsMapSet cm p.1 p.2) p.1 = true := by
        by_cases hh : jsMapHas cm p.1
        · simpa [hh]
        · rw [if_neg hh, jsMapSet_absent _ _ _ (by simpa using hh)]
          simp [jsMapHas, List.any_append, hrefl]
      exact jsMapHas_merge_mono _ rest p.1 hstep
    · exact ih _ hmem

theorem mergeDefaults_noop (acc d : List (CNode × CNode))
    (h : ∀ p ∈ d, jsMapHas acc p.1 = true) : mergeDefaults acc d = acc := by
  induction d with
  | nil => rfl
  | cons q rest ih =>
    rw [mergeDefaults_cons, if_pos (h q (by simp))]
    exact ih fun p hp => h p (by simp [hp])

/-- C8: merging the same default document a second time leaves the tree
exactly as after the first merge — every key of the document (its keys are
strings, hence SameValueZero-reflexive) is present after the first merge, so
the second merge inserts nothing. -/
theorem merge_idempotent (cm d : List (CNode × CNode))
    (h : ∀ p ∈ d, sameValueZero p.1 p.1 = true) :
    mergeDefaults (mergeDefaults cm d) d = mergeDefaults cm d :=
  mergeDefaults_noop _ _ fun p hp => jsMapHas_merge_of_mem cm d p (h p hp) hp

/-- Witness for C8 at the concrete environment and default documents of the
development. -/
theorem merge_idempotent_witness :
    (∀ p ∈ defaultDocTree, sameValueZero p.1 p.1 = true) ∧
    mergeDefaults (mergeDefaults envDocTree defaultDocTree) defaultDocTree =
      mergeDefaults envDocTree defaultDocTree :=
  ⟨by decide, merge_idempotent envDocTree defaultDocTree (by decide)⟩

theorem replaceRefsGo_no_refs (fuel : Nat) (l : List Char)
    (h : replaceRefsGo (fun _ => none) fuel l = .ok l) (env : EnvLookup) :
    replaceRefsGo env fuel l = .ok l := by
  induction fuel generalizing l with
  | zero => rfl
  | succ fuel ih =>
    cases l with
    | nil => rfl
    | cons c rest =>
      by_cases hc : c = '$'
      · subst hc
        simp only [replaceRefsGo, eq_self_iff_true, if_true] at h ⊢
        cases rest with
        | nil =>
          simp only [Bind.bind, Except.bind] at h ⊢
          cases hr : replaceRefsGo (fun _ => none) fuel [] with
          | error e => rw [hr] at h; simp at h
          | ok tail =>
            rw [hr] at h
            simp only [pure, Except.pure, Except.ok.injEq, List.cons.injEq,
              true_and] at h
            rw [ih [] (h ▸ hr)]
            simp [pure, Except.pure, h]
        | cons c2 rest1 =>
          by_cases hc2 : c2 = '\x7b'
          · subst hc2
            simp only [eq_self_iff_true, if_true] at h ⊢
            cases hrs : refNameSplit rest1 with
            | some p =>
              obtain ⟨name, rest2⟩ := p
              rw [hrs] at h
              simp only [getStringFromEnv, Bind.bind, Except.bind] at h
              simp at h
            | none =>
              rw [hrs] at h
              simp only [Bind.bind, Except.bind] at h ⊢
              cases hr : replaceRefsGo (fun _ => none) fuel ('\x7b' :: rest1) with
              | error e => rw [hr] at h; simp at h
              | ok tail =>
                rw [hr] at h
                simp only [pure, Except.pure, Except.ok.injEq,
                  List.cons.injEq, true_and] at h
                rw [ih _ (h ▸ hr)]
                simp [pure, Except.pure, h]
          · simp only [if_neg hc2, Bind.bind, Except.bind] at h ⊢
            cases hr : replaceRefsGo (fun _ => none) fuel (c2 :: rest1) with
            | error e => rw [hr] at h; simp at h
            | ok tail =>
              rw [hr] at h
              simp only [pure, Except.pure, Except.ok.injEq,
                List.cons.injEq, true_and] at h
              rw [ih _ (h ▸ hr)]
              simp [pure, Except.pure, h]
      · simp only [replaceRefsGo, if_neg hc, Bind.bind, Except.bind] at h ⊢
        cases hr : replaceRefsGo (fun _ => none) fuel rest with
        | error e => rw [hr] at h; simp at h
        | ok tail =>
          rw [hr] at h
          simp only [pure, Except.pure, Except.ok.injEq, List.cons.injEq,
            true_and] at h
          rw [ih rest (h ▸ hr)]
          simp [pure, Except.pure, h]

theorem typeofJson_mem (j : Json) : typeofJson j ∈ nestableTokens := by
  cases j <;> simp [typeofJson, nestableTokens]

theorem convertToNestableType_unsupported (rt : JsRuntime) (t : String)
    (h : t ∉ nestableTokens) (item : Json) :
    convertToNestableType rt t item = .error (.unsupportedType t) := by
  simp only [nestableTokens, List.mem_cons, List.not_mem_nil, or_false,
    not_or] at h
  obtain ⟨h1, h2, h3, h4, h5, h6⟩ := h
  simp [convertToNestableType, h1, h2, h3, h4, h5, h6]

theorem matchTyped_some_starts (input : String)
    (m : String × Option String × Option String × Option String)
    (h : matchTyped input = some m) : jsStartsWith input "$" = true := by
  unfold matchTyped at h
  split at h
  next rest heq => simp [jsStartsWith, heq, List.isPrefixOf]
  next => simp at h

theorem expandEnvVar_nomatch (rt : JsRuntime) (env : EnvLookup) (input : String)
    (h : matchTyped input = none) :
    expandEnvVar rt env input = (replaceRefs env input).map .vStr := by
  unfold expandEnvVar
  by_cases hs : jsStartsWith input "$"
  · simp [hs, h]
  · simp [hs]

/-- C2 amended: a type or subtype token outside the recognised sets raises
`UnsupportedTypeError` (and never `TypeConversionError` in its place)
whenever it is actually dispatched on — for every element conversion, for
every array conversion whose parsed JSON array is non-empty, and for the
top-level type token of a full typed-substitution match; only a container
whose parsed JSON is empty lets an unsupported subtype token pass
undetected. -/
theorem unsupported_type_raises (rt : JsRuntime) (t : String)
    (h : t ∉ nestableTokens) :
    (∀ item : Json, convertToNestableType rt t item =
      .error (.unsupportedType t)) ∧
    (∀ value e rest, jsonParse value = some (.arr (e :: rest)) →
      convertToArray rt value (some t) = .error (.unsupportedType t)) ∧
    (∀ (env : EnvLookup) input varName typeTok sub1 sub2,
      matchTyped input = some (varName, some typeTok, sub1, sub2) →
      jsToLowerCase typeTok ∉ (["string", "number", "boolean", "date",
        "regexp", "object", "array", "set", "map"] : List String) →
      expandEnvVar rt env input = .error (.unsupportedType typeTok)) := by
  refine ⟨convertToNestableType_unsupported rt t h, ?_, ?_⟩
  · intro value e rest hp
    have hne : typeofJson e ≠ t := fun he => h (he ▸ typeofJson_mem e)
    simp [convertToArray, convertToArrayBody, hp, List.mapM, List.mapM.loop,
      hne, convertToNestableType_unsupported rt t h, rewrapContainer,
      Bind.bind, Except.bind]
  · intro env input varName typeTok sub1 sub2 hm hlow
    simp only [List.mem_cons, List.not_mem_nil, or_false, not_or] at hlow
    obtain ⟨g1, g2, g3, g4, g5, g6, g7, g8, g9⟩ := hlow
    unfold expandEnvVar
    simp [matchTyped_some_starts input _ hm, hm, g1, g2, g3, g4, g5, g6, g7,
      g8, g9]

/-- C2 counterexample: converting the raw string `[]` with the unsupported
subtype token `invalidtype` raises nothing at all — the element loop never
runs, so the conversion succeeds with an empty array instead of raising
`UnsupportedTypeError` as the claim demands for every raw string input. -/
theorem unsupported_subtype_empty_array :
    convertToArray plainJsRuntime "[]" (some "invalidtype") = .ok [] ∧
    ∀ e : CfgError,
      convertToArray plainJsRuntime "[]" (some "invalidtype") ≠ .error e := by
  refine ⟨rfl, ?_⟩
  intro e h
  exact Except.noConfusion
    ((show convertToArray plainJsRuntime "[]" (some "invalidtype") =
        .ok [] from rfl).symm.trans h)

/-- Witness for the C2 amended theorem with the unsupported token
`invalidtype`: an element conversion, a non-empty array conversion and a
full-match top-level dispatch all raise `UnsupportedTypeError`. -/
theorem unsupported_type_raises_witness :
    ("invalidtype" ∉ nestableTokens) ∧
    convertToNestableType plainJsRuntime "invalidtype" (.bool true) =
      .error (.unsupportedType "invalidtype") ∧
    convertToArray plainJsRuntime "[true]" (some "invalidtype") =
      .error (.unsupportedType "invalidtype") ∧
    expandEnvVar plainJsRuntime envWitness "$MAP::invalidtype" =
      .error (.unsupportedType "invalidtype") := by
  refine ⟨by decide, ?_, ?_, ?_⟩
  · exact (unsupported_type_raises plainJsRuntime "invalidtype"
      (by decide)).1 (.bool true)
  · exact (unsupported_type_raises plainJsRuntime "invalidtype"
      (by decide)).2.1 "[true]" (.bool true) [] rfl
  · exact (unsupported_type_raises plainJsRuntime "invalidtype"
      (by decide)).2.2 envWitness "$MAP::invalidtype" "MAP" "invalidtype"
      none none rfl (by decide)

/-- C3: type conversion happens only on an entire-string match of the
typed-substitution grammar — for every leaf string that does not fully match
it, expansion is exactly the inline `${NAME}` string replacement, and every
successful result is a string, never a type-converted value. -/
theorem expansion_entire_match_only (rt : JsRuntime) (env : EnvLookup)
    (input : String) (h : matchTyped input = none) :
    expandEnvVar rt env input = (replaceRefs env input).map .vStr ∧
    ∀ v, expandEnvVar rt env input = .ok v → ∃ s, v = .vStr s := by
  have h1 := expandEnvVar_nomatch rt env input h
  refine ⟨h1, ?_⟩
  intro v hv
  rw [h1] at hv
  cases hr : replaceRefs env input with
  | ok s =>
    rw [hr] at hv
    simp only [Except.map] at hv
    exact ⟨s, (Except.ok.injEq _ _ |>.mp hv).symm⟩
  | error e => rw [hr] at hv; simp [Except.map] at hv

/-- Witness for C3 at the spec's concrete scenario: the leaf
`prefix ${MAP}` expands to the literal string holding the raw JSON text of
`MAP`, never to a map value. -/
theorem expansion_entire_match_only_witness :
    matchTyped "prefix $\x7bMAP\x7d" = none ∧
    expandEnvVar plainJsRuntime envWitness "prefix $\x7bMAP\x7d" =
      .ok (.vStr "prefix \x7b\"cat\":\"test\",\"bat\":\"test\"\x7d") := by
  refine ⟨by decide, ?_⟩
  rw [(expansion_entire_match_only plainJsRuntime envWitness _ (by decide)).1]
  rfl

/-- C10: a leaf string that neither fully matches the typed-substitution
grammar nor contains any `${NAME}` reference with an `[A-Z0-9_]+` name (the
second hypothesis says the scan succeeds unchanged even against an empty
environment, i.e. no lookup is ever performed) is returned unchanged by the
expansion, without any environment lookup, type conversion or error, under
every runtime and every environment. -/
theorem lowercase_name_never_recognized (input : String)
    (h1 : matchTyped input = none)
    (h2 : replaceRefs (fun _ => none) input = .ok input) :
    ∀ (rt : JsRuntime) (env : EnvLookup),
      expandEnvVar rt env input = .ok (.vStr input) := by
  intro rt env
  rw [expandEnvVar_nomatch rt env input h1]
  have hgo : replaceRefsGo (fun _ => none) (input.length + 1) input.data =
      .ok input.data := by
    unfold replaceRefs at h2
    cases hr : replaceRefsGo (fun _ => none) (input.length + 1) input.data with
    | error e => rw [hr] at h2; simp [Except.map] at h2
    | ok cs =>
      rw [hr] at h2
      simp only [Except.map, Except.ok.injEq] at h2
      rw [show cs = input.data from congrArg String.data h2]
  rw [show replaceRefs env input = .ok input from ?_]
  · rfl
  · unfold replaceRefs
    rw [replaceRefsGo_no_refs _ _ hgo env]
    rfl

/-- Witness for C10 at the two leaves of the claim, `$boolean::boolean` and
`${map}` (lower-case names): both are returned unchanged. -/
theorem lowercase_name_never_recognized_witness :
    (matchTyped "$boolean::boolean" = none ∧
      replaceRefs (fun _ => none) "$boolean::boolean" =
        .ok "$boolean::boolean" ∧
      expandEnvVar plainJsRuntime envWitness "$boolean::boolean" =
        .ok (.vStr "$boolean::boolean")) ∧
    (matchTyped "$\x7bmap\x7d" = none ∧
      replaceRefs (fun _ => none) "$\x7bmap\x7d" = .ok "$\x7bmap\x7d" ∧
      expandEnvVar plainJsRuntime envWitness "$\x7bmap\x7d" =
        .ok (.vStr "$\x7bmap\x7d")) := by
  refine ⟨⟨by decide, rfl, ?_⟩, ⟨by decide, rfl, ?_⟩⟩
  · exact lowercase_name_never_recognized "$boolean::boolean" (by decide) rfl
      plainJsRuntime envWitness
  · exact lowercase_name_never_recognized "$\x7bmap\x7d" (by decide) rfl
      plainJsRuntime envWitness

/-- C9: once a configuration pass has completed (the already-configured flag
is set), `configure` with `force` literally `false` returns the whole module
state unchanged, while `configure` with any other argument — in particular
with `force` omitted — does not short-circuit and runs the entire
configuration pass. -/
theorem configure_force_guard (inp : ConfigInput) (s : ConfigState)
    (h : s.alreadyConfigured = true) :
    configure (some false) inp s = .ok s ∧
    ∀ force, force ≠ some false →
      configure force inp s = configurePass inp s := by
  constructor
  · simp [configure, h]
  · intro force hf
    simp [configure, h, hf]

/-- Witness for C9 at a concrete already-configured state and a world with a
`--env=production` argument: `force = false` leaves the state untouched,
while omitting `force` re-runs the pass, which demonstrably changes the
state (the environment flips from `development` to `production`). -/
theorem configure_force_guard_witness :
    c9State.alreadyConfigured = true ∧
    configure (some false) c9Input c9State = .ok c9State ∧
    configure none c9Input c9State = configurePass c9Input c9State ∧
    (configurePass c9Input c9State).map (·.environment) = .ok "production" ∧
    c9State.environment = "development" := by
  refine ⟨rfl, (configure_force_guard c9Input c9State rfl).1,
    (configure_force_guard c9Input c9State rfl).2 none (by simp), ?_, rfl⟩
  rfl
